import Mathlib

/-!
Verification of the FD-Lead-Gen job ingestion and qualification pipeline.

The repository's backend (`backend/src/indeed/`: api.py, normalize.py, ingest.py,
scoring.py, hr_contacts.py, qualify.py) is documented in the repository READMEs
but its Python sources are not part of this tree, so the pipeline is modelled
here from the specification and the backend documentation.  The frontend table
filtering code (`multiSelectFilter`, `arrayFilter`, `dateFilter`) and the
`TableCellWithLinks` component are present as TypeScript sources and are
embedded directly from them.
-/

namespace FD

/-! ### Basic string helpers -/

/-- ASCII lower-casing of one character (used to model `toLowerCase` and
case-insensitive matching). -/
def asciiLower (c : Char) : Char :=
  if 'A' ≤ c ∧ c ≤ 'Z' then Char.ofNat (c.toNat + 32) else c

/-- ASCII lower-casing of a string. -/
def lowerStr (s : String) : String := ⟨s.data.map asciiLower⟩

/-- Does the text begin with the pattern (both as character lists)? -/
def beginsList : List Char → List Char → Bool
  | [], _ => true
  | _ :: _, [] => false
  | p :: ps, t :: ts => p == t && beginsList ps ts

/-- Does the pattern occur as a contiguous substring of the text? -/
def hasSubstrList : List Char → List Char → Bool
  | ps, [] => ps.isEmpty
  | ps, t :: ts => beginsList ps (t :: ts) || hasSubstrList ps ts

/-- Case-insensitive substring test on strings. -/
def containsPhrase (text phrase : String) : Bool :=
  hasSubstrList (lowerStr phrase).data (lowerStr text).data

/-- Render an optional string, `none` becoming the empty string. -/
def optStr : Option String → String
  | none => ""
  | some s => s

/-! ### SHA-256 over `Nat` (32-bit words with explicit `% 2^32`) -/

/-- Reduce a natural number to a 32-bit word. -/
def w32 (n : Nat) : Nat := n % 4294967296

/-- Rotate a 32-bit word right by `n` bits (pure arithmetic form). -/
def rotr32 (n x : Nat) : Nat := x / 2 ^ n + x % 2 ^ n * 2 ^ (32 - n)

/-- SHA-256 message-schedule sigma-0. -/
def smallSigma0 (x : Nat) : Nat := rotr32 7 x ^^^ rotr32 18 x ^^^ x / 8

/-- SHA-256 message-schedule sigma-1. -/
def smallSigma1 (x : Nat) : Nat := rotr32 17 x ^^^ rotr32 19 x ^^^ x / 1024

/-- SHA-256 compression Sigma-0. -/
def bigSigma0 (x : Nat) : Nat := rotr32 2 x ^^^ rotr32 13 x ^^^ rotr32 22 x

/-- SHA-256 compression Sigma-1. -/
def bigSigma1 (x : Nat) : Nat := rotr32 6 x ^^^ rotr32 11 x ^^^ rotr32 25 x

/-- SHA-256 round constants (fractional parts of the cube roots of the first
64 primes, FIPS 180-4, written in decimal). -/
def sha256K : List Nat :=
  [1116352408, 1899447441, 3049323471, 3921009573, 961987163, 1508970993,
   2453635748, 2870763221, 3624381080, 310598401, 607225278, 1426881987,
   1925078388, 2162078206, 2614888103, 3248222580, 3835390401, 4022224774,
   264347078, 604807628, 770255983, 1249150122, 1555081692, 1996064986,
   2554220882, 2821834349, 2952996808, 3210313671, 3336571891, 3584528711,
   113926993, 338241895, 666307205, 773529912, 1294757372, 1396182291,
   1695183700, 1986661051, 2177026350, 2456956037, 2730485921, 2820302411,
   3259730800, 3345764771, 3516065817, 3600352804, 4094571909, 275423344,
   430227734, 506948616, 659060556, 883997877, 958139571, 1322822218,
   1537002063, 1747873779, 1955562222, 2024104815, 2227730452, 2361852424,
   2428436474, 2756734187, 3204031479, 3329325298]

/-- SHA-256 initial hash state (fractional parts of the square roots of the
first 8 primes, FIPS 180-4, written in decimal). -/
def sha256H0 : List Nat :=
  [1779033703, 3144134277, 1013904242, 2773480762,
   1359893119, 2600822924, 528734635, 1541459225]

/-- UTF-8 encoding of one Unicode code point. -/
def utf8Char (c : Nat) : List Nat :=
  if c < 0x80 then [c]
  else if c < 0x800 then [0xC0 + c / 0x40, 0x80 + c % 0x40]
  else if c < 0x10000 then [0xE0 + c / 0x1000, 0x80 + c / 0x40 % 0x40, 0x80 + c % 0x40]
  else [0xF0 + c / 0x40000, 0x80 + c / 0x1000 % 0x40, 0x80 + c / 0x40 % 0x40, 0x80 + c % 0x40]

/-- UTF-8 encoding of a string, as a byte list. -/
def utf8Encode (s : String) : List Nat :=
  (s.data.map (fun c => utf8Char c.toNat)).flatten

/-- Big-endian byte expansion: `beBytes k n` is the low `k` bytes of `n`,
most significant first. -/
def beBytes : Nat → Nat → List Nat
  | 0, _ => []
  | k + 1, n => beBytes k (n / 256) ++ [n % 256]

/-- SHA-256 message padding: append `0x80`, zero-pad to 56 mod 64, then the
64-bit big-endian bit length. -/
def sha256Pad (msg : List Nat) : List Nat :=
  msg ++ [0x80] ++ List.replicate ((119 - msg.length % 64) % 64) 0 ++ beBytes 8 (msg.length * 8)

/-- Group a byte list into big-endian 32-bit words. -/
def bytesToWords : List Nat → List Nat
  | a :: b :: c :: d :: rest => (((a * 256 + b) * 256 + c) * 256 + d) :: bytesToWords rest
  | _ => []

/-- Split a word list into 16-word blocks. -/
def chunk16 : List Nat → List (List Nat)
  | [] => []
  | w :: rest => (w :: rest).take 16 :: chunk16 ((w :: rest).drop 16)
termination_by l => l.length
decreasing_by simp; omega

/-- One message-schedule word from the reversed schedule so far (most recent
word first). -/
def scheduleStep (rws : List Nat) : Nat :=
  w32 (smallSigma1 (rws.getD 1 0) + rws.getD 6 0 + smallSigma0 (rws.getD 14 0) + rws.getD 15 0)

/-- Extend the reversed 16-word block by `k` schedule words, returning the full
schedule in order. -/
def extendSchedule : Nat → List Nat → List Nat
  | 0, rws => rws.reverse
  | k + 1, rws => extendSchedule k (scheduleStep rws :: rws)

/-- One SHA-256 compression round on the 8-word working state. -/
def compressStep (k w : Nat) (s : List Nat) : List Nat :=
  match s with
  | [a, b, c, d, e, f, g, hh] =>
    let ch := (e &&& f) ^^^ ((4294967295 - e) &&& g)
    let temp1 := w32 (hh + bigSigma1 e + ch + k + w)
    let maj := (a &&& b) ^^^ (a &&& c) ^^^ (b &&& c)
    let temp2 := w32 (bigSigma0 a + maj)
    [w32 (temp1 + temp2), a, b, c, w32 (d + temp1), e, f, g]
  | _ => s

/-- Process one 16-word block, updating the 8-word hash state. -/
def sha256Block (hs : List Nat) (blockWords : List Nat) : List Nat :=
  let wsch := extendSchedule 48 blockWords.reverse
  let final := (List.zip sha256K wsch).foldl (fun s kw => compressStep kw.1 kw.2 s) hs
  (List.zip hs final).map (fun p => w32 (p.1 + p.2))

/-- SHA-256 of a byte list, as the list of eight 32-bit hash words. -/
def sha256Words (msg : List Nat) : List Nat :=
  (chunk16 (bytesToWords (sha256Pad msg))).foldl sha256Block sha256H0

/-- Lowercase hexadecimal digit table. -/
def hexDigits : List Char :=
  "0123456789abcdef".data

/-- Lowercase hexadecimal rendering of one 32-bit word (8 digits). -/
def wordHex (n : Nat) : List Char :=
  (List.range 8).map (fun i => hexDigits.getD (n / 16 ^ (7 - i) % 16) '0')

/-- SHA-256 of a byte list as a 64-character lowercase hex string. -/
def sha256Hex (msg : List Nat) : String :=
  ⟨((sha256Words msg).map wordHex).flatten⟩

/-! ### Normalizer and Raw Store

Modelled from the spec (backend sources `normalize.py` and `ingest.py` are not
in the tree): raw provider records, the canonical `RawPosting` shape, the
SHA-256 dedup fingerprint, and the idempotent raw-store insert. -/

/-- Modelled from the spec: a raw provider record as returned by the listing
API, with every optional field nullable (backend `normalize.py` is missing). -/
structure RawRecord where
  provider_id : Option String
  title : Option String
  company : Option String
  location_city : Option String
  location_state : Option String
  location_country : Option String
  location_postal_code : Option String
  salary_min : Option Int
  salary_max : Option Int
  salary_currency : Option String
  salary_period : Option String
  salary_text : Option String
  description_html : Option String
  description_text : Option String
  posting_url : Option String
  published_at : Option String
  is_remote : Option Bool
  payload : String
deriving DecidableEq, Repr

/-- Modelled from the spec: the display form of the structured location, used
in the fingerprint identity tuple. -/
def locationDisplay (r : RawRecord) : String :=
  String.intercalate ", "
    (([r.location_city, r.location_state, r.location_country].filterMap id).filter
      (fun s => !s.isEmpty))

/-- The identity tuple `(provider_id, title, company, location display,
posting_url, published_at)` that the fingerprint is computed from. -/
def identityTuple (r : RawRecord) :
    Option String × Option String × Option String × String × Option String × Option String :=
  (r.provider_id, r.title, r.company, locationDisplay r, r.posting_url, r.published_at)

/-- Modelled from the spec: concatenation
`provider_id ‖ title ‖ company ‖ location_display ‖ posting_url ‖ published_at`
fed to the digest. -/
def identityConcat (r : RawRecord) : String :=
  optStr r.provider_id ++ optStr r.title ++ optStr r.company ++ locationDisplay r ++
    optStr r.posting_url ++ optStr r.published_at

/-- Modelled from the spec: `job_hash`, the SHA-256 dedup digest of the
identity concatenation, rendered as hex. -/
def job_hash (s : String) : String := sha256Hex (utf8Encode s)

/-- Modelled from the spec: a canonical stored posting row keyed by its
fingerprint. -/
structure RawPosting where
  fingerprint : String
  provider_id : Option String
  title : Option String
  company : Option String
  location_city : Option String
  location_state : Option String
  location_country : Option String
  location_postal_code : Option String
  salary_min : Option Int
  salary_max : Option Int
  salary_currency : Option String
  salary_period : Option String
  salary_text : Option String
  description_html : Option String
  description_text : Option String
  posting_url : Option String
  published_at : Option String
  is_remote : Option Bool
  payload : String
deriving DecidableEq, Repr

/-- Modelled from the spec: normalization failure when both identity fields
(title, company) are absent. -/
inductive NormalizeError where
  | MalformedRecordError
deriving DecidableEq, Repr

/-- Modelled from the spec: `normalize(raw_record) -> RawPosting`, flattening
the raw record into the canonical shape and computing the fingerprint; fails
with `MalformedRecordError` when title and company are both absent. -/
def normalize (r : RawRecord) : Except NormalizeError RawPosting :=
  if r.title = none ∧ r.company = none then
    .error .MalformedRecordError
  else
    .ok
      { fingerprint := job_hash (identityConcat r)
        provider_id := r.provider_id
        title := r.title
        company := r.company
        location_city := r.location_city
        location_state := r.location_state
        location_country := r.location_country
        location_postal_code := r.location_postal_code
        salary_min := r.salary_min
        salary_max := r.salary_max
        salary_currency := r.salary_currency
        salary_period := r.salary_period
        salary_text := r.salary_text
        description_html := r.description_html
        description_text := r.description_text
        posting_url := r.posting_url
        published_at := r.published_at
        is_remote := r.is_remote
        payload := r.payload }

/-- The raw store, a list of rows in insertion order. -/
def RawStore : Type := List RawPosting

/-- Modelled from the spec: outcome of an idempotent insert; there is no
constraint-violation case, the conflict resolves silently. -/
inductive InsertOutcome where
  | Inserted
  | AlreadyExists
deriving DecidableEq, Repr

/-- Is a row with this fingerprint already present? -/
def hasFingerprint (store : List RawPosting) (fp : String) : Bool :=
  store.any (fun q => q.fingerprint == fp)

/-- Number of rows in the store carrying the given fingerprint. -/
def fingerprintCount (store : List RawPosting) (fp : String) : Nat :=
  (store.filter (fun q => q.fingerprint == fp)).length

/-- Modelled from the spec: `insert_if_absent`, the idempotent insert keyed on
`fingerprint` (`ON CONFLICT (job_hash) DO NOTHING`). -/
def insert_if_absent (p : RawPosting) (store : List RawPosting) :
    InsertOutcome × List RawPosting :=
  if hasFingerprint store p.fingerprint then (.AlreadyExists, store)
  else (.Inserted, store ++ [p])

/-! ### Listing Client

Modelled from the spec (backend `api.py` is not in the tree): paginated fetch
with exponential backoff plus jitter on HTTP 429, bounded retries, and the
stop conditions for pagination. -/

/-- Modelled from the spec: one provider response to a page request. -/
inductive ApiResponse (R : Type) where
  | ok (records : List R) (has_more : Bool)
  | rateLimited
  | httpError (code : Nat)

/-- Modelled from the spec: fetch failures surfaced to the caller. -/
inductive FetchError where
  | RateLimitExhausted (page : Nat)
  | UpstreamFetchError (page : Nat) (code : Nat)
deriving DecidableEq, Repr

/-- Modelled from the spec: the retry loop of `fetch_page`.  `respond a` is the
provider behaviour on attempt `a`; on a 429 the client waits
`2 ^ attempt + jitter attempt` seconds and retries while retry fuel remains.
Returns the outcome together with the list of backoff waits performed. -/
def fetchAttempts {R : Type} (respond : Nat → ApiResponse R) (jitter : Nat → ℚ)
    (pageIdx : Nat) : Nat → Nat → Except FetchError (List R × Bool) × List ℚ
  | attempt, fuel =>
    match respond attempt with
    | .ok recs more => (.ok (recs, more), [])
    | .httpError code => (.error (.UpstreamFetchError pageIdx code), [])
    | .rateLimited =>
      match fuel with
      | 0 => (.error (.RateLimitExhausted pageIdx), [])
      | fuel2 + 1 =>
        let wait : ℚ := 2 ^ attempt + jitter attempt
        let rest := fetchAttempts respond jitter pageIdx (attempt + 1) fuel2
        (rest.1, wait :: rest.2)

/-- Modelled from the spec: `fetch_page` retries a rate-limited page up to 5
times with exponential backoff and jitter before surfacing
`RateLimitExhausted`. -/
def fetch_page {R : Type} (respond : Nat → ApiResponse R) (jitter : Nat → ℚ)
    (pageIdx : Nat) : Except FetchError (List R × Bool) × List ℚ :=
  fetchAttempts respond jitter pageIdx 0 5

/-- Result of a paginated fetch run: the records gathered, the page indices
requested, and the error that stopped the run, if any. -/
structure FetchRun (R : Type) where
  records : List R
  pages_fetched : List Nat
  error : Option FetchError

/-- Modelled from the spec: the pagination loop.  Stops when the page budget is
exhausted, when a page returns fewer records than `page_size` or an empty page,
and surfaces a page's fetch error while keeping records of pages already
fetched. -/
def fetchAllPages {R : Type} (respond : Nat → Nat → ApiResponse R)
    (jitter : Nat → Nat → ℚ) (page_size : Nat) : Nat → Nat → FetchRun R
  | 0, _ => ⟨[], [], none⟩
  | fuel + 1, pageIdx =>
    match fetch_page (respond pageIdx) (jitter pageIdx) pageIdx with
    | (.error e, _) => ⟨[], [pageIdx], some e⟩
    | (.ok (recs, _more), _) =>
      if recs.isEmpty || recs.length < page_size then ⟨recs, [pageIdx], none⟩
      else
        let rest := fetchAllPages respond jitter page_size fuel (pageIdx + 1)
        ⟨recs ++ rest.records, pageIdx :: rest.pages_fetched, rest.error⟩

/-- Paginated fetch starting at page 0 with a `max_pages` budget. -/
def fetchPages {R : Type} (respond : Nat → Nat → ApiResponse R)
    (jitter : Nat → Nat → ℚ) (page_size max_pages : Nat) : FetchRun R :=
  fetchAllPages respond jitter page_size max_pages 0

/-- The fetch outcome of one page as seen by the pagination loop. -/
def pageResult {R : Type} (respond : Nat → Nat → ApiResponse R)
    (jitter : Nat → Nat → ℚ) (pageIdx : Nat) : Except FetchError (List R × Bool) :=
  (fetch_page (respond pageIdx) (jitter pageIdx) pageIdx).1

/-- Was the page full, i.e. did it neither fail, nor come back empty, nor come
back with fewer records than requested? -/
def pageFull {R : Type} (page_size : Nat) : Except FetchError (List R × Bool) → Bool
  | .ok (recs, _) => !(recs.isEmpty || decide (recs.length < page_size))
  | .error _ => false

/-! ### Ingestion run entry points

Modelled from the spec and backend README: `backfill(from_days, max_pages)` and
`nightly()` both run the same fetch–normalize–insert pipeline and return a
structured summary. -/

/-- Parameters of one ingestion run. -/
structure IngestParams where
  query : String
  location : String
  from_days : Nat
  max_pages : Nat
  page_size : Nat
deriving DecidableEq, Repr

/-- Default search query (README: `packaging`). -/
def defaultQuery : String := "packaging"

/-- Default location (README: `Springfield, OH`). -/
def defaultLocation : String := "Springfield, OH"

/-- Default page size (README: 15). -/
def defaultPageSize : Nat := 15

/-- Default page bound (README: 10). -/
def defaultMaxPages : Nat := 10

/-- Structured summary of an ingestion run
(fetched/inserted/skipped/errors plus any fetch failure). -/
structure IngestSummary where
  fetched : Nat
  inserted : Nat
  skipped : Nat
  errors : Nat
  fetch_error : Option FetchError
deriving DecidableEq, Repr

/-- Normalize and insert a batch of raw records, counting inserted, skipped
(duplicate) and malformed records. -/
def ingestRecords : List RawRecord → List RawPosting → (Nat × Nat × Nat) × List RawPosting
  | [], store => ((0, 0, 0), store)
  | r :: rest, store =>
    match normalize r with
    | .error _ =>
      let res := ingestRecords rest store
      ((res.1.1, res.1.2.1, res.1.2.2 + 1), res.2)
    | .ok p =>
      match insert_if_absent p store with
      | (.Inserted, store2) =>
        let res := ingestRecords rest store2
        ((res.1.1 + 1, res.1.2.1, res.1.2.2), res.2)
      | (.AlreadyExists, store2) =>
        let res := ingestRecords rest store2
        ((res.1.1, res.1.2.1 + 1, res.1.2.2), res.2)

/-- Modelled from the spec: one ingestion run — fetch all pages for the given
parameters, normalize each record, insert into the raw store, and return the
summary with the updated store. -/
def runIngestion (oracle : IngestParams → Nat → Nat → ApiResponse RawRecord)
    (jitter : Nat → Nat → ℚ) (ps : IngestParams) (store : List RawPosting) :
    IngestSummary × List RawPosting :=
  let run := fetchPages (fun page attempt => oracle ps page attempt) jitter ps.page_size ps.max_pages
  let res := ingestRecords run.records store
  ({ fetched := run.records.length
     inserted := res.1.1
     skipped := res.1.2.1
     errors := res.1.2.2
     fetch_error := run.error }, res.2)

/-- Modelled from the spec: `backfill(from_days, max_pages)` — an ingestion run
over a historical window with the default query, location and page size. -/
def backfill (oracle : IngestParams → Nat → Nat → ApiResponse RawRecord)
    (jitter : Nat → Nat → ℚ) (from_days max_pages : Nat) (store : List RawPosting) :
    IngestSummary × List RawPosting :=
  runIngestion oracle jitter
    ⟨defaultQuery, defaultLocation, from_days, max_pages, defaultPageSize⟩ store

/-- Modelled from the spec: `nightly()` — the fixed 1-day, 10-page shorthand
run for scheduled invocations (README: last 24 hours, `maxPages` 10). -/
def nightly (oracle : IngestParams → Nat → Nat → ApiResponse RawRecord)
    (jitter : Nat → Nat → ℚ) (store : List RawPosting) :
    IngestSummary × List RawPosting :=
  runIngestion oracle jitter ⟨defaultQuery, defaultLocation, 1, 10, defaultPageSize⟩ store

/-! ### Scorer

Modelled from the spec (backend `scoring.py` is not in the tree): the
citizenship hard-reject gate evaluated first, and the weighted rubric behind an
abstract evaluation capability, per the design note on external judgment
calls. -/

/-- Modelled from the spec: output of the Scorer for one posting. -/
structure ScoreResult where
  score : Nat
  reasons : List String
  hard_reject : Bool
  hard_reject_reason : Option String
deriving DecidableEq, Repr

/-- Modelled from the spec: scoring failure when the evaluation call fails or
returns an unparsable payload. -/
inductive ScoreError where
  | ScoringUnavailable
deriving DecidableEq, Repr

/-- Modelled from the spec: citizenship-requirement phrases that trigger the
hard-reject gate (README: "U.S. citizenship" or similar phrasing). -/
def citizenshipPhrases : List String :=
  ["u.s. citizenship", "us citizenship", "u.s. citizen", "us citizen",
   "citizenship required", "must be a citizen"]

/-- The searchable text of a posting: title plus plain-text description. -/
def postingText (p : RawPosting) : String :=
  optStr p.title ++ " " ++ optStr p.description_text

/-- First citizenship-requirement phrase occurring (case-insensitively) in the
text, if any. -/
def findCitizenshipPhrase (text : String) : Option String :=
  citizenshipPhrases.find? (fun phrase => containsPhrase text phrase)

/-- Modelled from the spec: the five rubric sub-scores
(role 0–40, requirements 0–25, labor 0–15, on-site 0–10, language 0–10). -/
structure RubricScores where
  role_match : Nat
  requirements_fit : Nat
  labor_signal : Nat
  on_site : Nat
  plain_language : Nat
deriving DecidableEq, Repr

/-- Clamp each rubric component to its weight so the total stays on the 0–100
scale. -/
def clampRubric (r : RubricScores) : RubricScores :=
  ⟨min r.role_match 40, min r.requirements_fit 25, min r.labor_signal 15,
   min r.on_site 10, min r.plain_language 10⟩

/-- Weighted rubric total. -/
def rubricTotal (r : RubricScores) : Nat :=
  r.role_match + r.requirements_fit + r.labor_signal + r.on_site + r.plain_language

/-- Modelled from the spec: `score(posting) -> ScoreResult`.  The citizenship
hard-reject gate runs first and skips sub-scoring entirely; otherwise the
external evaluation capability produces the rubric sub-scores and rationale,
and its failure surfaces `ScoringUnavailable`. -/
def score (evaluate : RawPosting → Option (RubricScores × List String))
    (p : RawPosting) : Except ScoreError ScoreResult :=
  match findCitizenshipPhrase (postingText p) with
  | some phrase => .ok ⟨0, [], true, some phrase⟩
  | none =>
    match evaluate p with
    | none => .error .ScoringUnavailable
    | some (rub, reasons) => .ok ⟨rubricTotal (clampRubric rub), reasons, false, none⟩

/-! ### Contact Sourcer

Modelled from the spec (backend `hr_contacts.py` is not in the tree): resolve
the company to an organization, search people by the ranked title buckets, and
break ties by email, then professional-network URL, then an assistive judgment
step with a deterministic first-candidate fallback. -/

/-- Modelled from the spec: the selected HR contact embedded in a qualified
row. -/
structure Contact where
  name : String
  title : String
  email : Option String
  linkedin_url : Option String
deriving DecidableEq, Repr

/-- Modelled from the spec: a person returned by the enrichment provider, any
field of which may be absent. -/
structure OrgPerson where
  name : String
  title : String
  email : Option String
  linkedin_url : Option String
deriving DecidableEq, Repr

/-- Modelled from the spec: the ranked priority list of HR titles, most senior
first (README list). -/
def priorityTitles : List String :=
  ["vp of human resources", "director of human resources", "hr business partner",
   "hr manager", "talent acquisition", "recruiting manager", "recruiter"]

/-- People whose title matches a bucket (case-insensitive containment). -/
def bucketCandidates (people : List OrgPerson) (bucket : String) : List OrgPerson :=
  people.filter (fun c => containsPhrase c.title bucket)

/-- The highest-priority title bucket with at least one candidate. -/
def firstNonEmptyBucket (people : List OrgPerson) : List String → Option (List OrgPerson)
  | [] => none
  | b :: bs =>
    let cs := bucketCandidates people b
    if cs.isEmpty then firstNonEmptyBucket people bs else some cs

/-- Modelled from the spec: tie-breaking within a bucket — prefer a candidate
with an email, then one with a professional-network URL, then let the assistive
judgment step pick, falling back to the first candidate in provider order. -/
def pickWithinBucket (judge : List OrgPerson → Option OrgPerson)
    (cs : List OrgPerson) : Option OrgPerson :=
  let withEmail := cs.filter (fun c => c.email.isSome)
  let pool1 := if withEmail.isEmpty then cs else withEmail
  let withLink := pool1.filter (fun c => c.linkedin_url.isSome)
  let pool2 := if withLink.isEmpty then pool1 else withLink
  match judge pool2 with
  | some c => if pool2.contains c then some c else pool2.head?
  | none => pool2.head?

/-- Modelled from the spec: `find_best_contact(company_name) -> Contact | None`.
Returns `none` (never raises) when the company is unresolved or no candidate
exists in any bucket. -/
def find_best_contact (resolveOrg : String → Option Nat)
    (peopleAt : Nat → List OrgPerson) (judge : List OrgPerson → Option OrgPerson)
    (company : String) : Option Contact :=
  match resolveOrg company with
  | none => none
  | some org =>
    match firstNonEmptyBucket (peopleAt org) priorityTitles with
    | none => none
    | some cs =>
      (pickWithinBucket judge cs).map (fun c => ⟨c.name, c.title, c.email, c.linkedin_url⟩)

/-! ### Qualifier (orchestrator)

Modelled from the spec (backend `qualify.py` is not in the tree): per-posting
state machine `Scored → {HardRejected | BelowThreshold | PassedNoContact |
PassedWithContact | SkippedError}`, with an idempotent insert into the
qualified store keyed on fingerprint. -/

/-- Modelled from the spec: one row of `qualified_indeed_jobs`; contact fields
are nullable. -/
structure QualifiedPosting where
  fingerprint : String
  title : Option String
  company : Option String
  score : Nat
  reasons : List String
  company_30d_postings_count : Nat
  hr_contact_name : Option String
  hr_contact_title : Option String
  hr_contact_email : Option String
  hr_contact_linkedin : Option String
deriving DecidableEq, Repr

/-- Is a qualified row with this fingerprint already present? -/
def hasQualifiedFingerprint (store : List QualifiedPosting) (fp : String) : Bool :=
  store.any (fun q => q.fingerprint == fp)

/-- Modelled from the spec: idempotent insert into the qualified store, keyed
on `fingerprint`. -/
def qualifiedInsert (row : QualifiedPosting) (store : List QualifiedPosting) :
    List QualifiedPosting :=
  if hasQualifiedFingerprint store row.fingerprint then store else store ++ [row]

/-- Modelled from the spec: the terminal state of one posting in a run. -/
inductive QualifyOutcome where
  | HardRejected
  | BelowThreshold
  | PassedNoContact
  | PassedWithContact
  | SkippedError
deriving DecidableEq, Repr

/-- Build the qualified row for a passing posting, embedding the selected
contact (or nulls when none was found). -/
def mkQualifiedRow (p : RawPosting) (r : ScoreResult) (companyCount : Nat)
    (c : Option Contact) : QualifiedPosting :=
  { fingerprint := p.fingerprint
    title := p.title
    company := p.company
    score := r.score
    reasons := r.reasons
    company_30d_postings_count := companyCount
    hr_contact_name := c.map Contact.name
    hr_contact_title := c.map Contact.title
    hr_contact_email := c.bind Contact.email
    hr_contact_linkedin := c.bind Contact.linkedin_url }

/-- Modelled from the spec: qualification of one posting — score it, hard
reject or drop below threshold without persisting, otherwise source a contact
and write the row via the idempotent insert. -/
def qualifyOne (threshold : Nat)
    (evaluate : RawPosting → Option (RubricScores × List String))
    (contacts : String → Option Contact) (companyCount : RawPosting → Nat)
    (store : List QualifiedPosting) (p : RawPosting) :
    QualifyOutcome × List QualifiedPosting :=
  match score evaluate p with
  | .error _ => (.SkippedError, store)
  | .ok r =>
    if r.hard_reject then (.HardRejected, store)
    else if r.score < threshold then (.BelowThreshold, store)
    else
      let c := contacts (optStr p.company)
      let row := mkQualifiedRow p r (companyCount p) c
      match c with
      | none => (.PassedNoContact, qualifiedInsert row store)
      | some _ => (.PassedWithContact, qualifiedInsert row store)

/-- Per-run counters reported for observability. -/
structure RunStats where
  fetched : Nat
  scored : Nat
  hard_rejected : Nat
  below_threshold : Nat
  passed : Nat
  contacts_found : Nat
  errors : Nat
deriving DecidableEq, Repr

/-- Update the run counters with one posting's terminal state. -/
def tally (st : RunStats) : QualifyOutcome → RunStats
  | .SkippedError => { st with errors := st.errors + 1 }
  | .HardRejected => { st with scored := st.scored + 1, hard_rejected := st.hard_rejected + 1 }
  | .BelowThreshold =>
    { st with scored := st.scored + 1, below_threshold := st.below_threshold + 1 }
  | .PassedNoContact => { st with scored := st.scored + 1, passed := st.passed + 1 }
  | .PassedWithContact =>
    { st with scored := st.scored + 1, passed := st.passed + 1,
              contacts_found := st.contacts_found + 1 }

/-- Modelled from the spec: a full qualification run over the postings selected
for the time window, accumulating counters and threading the qualified store. -/
def runQualifier (threshold : Nat)
    (evaluate : RawPosting → Option (RubricScores × List String))
    (contacts : String → Option Contact) (companyCount : RawPosting → Nat)
    (postings : List RawPosting) (store : List QualifiedPosting) :
    RunStats × List QualifiedPosting :=
  postings.foldl
    (fun acc p =>
      let step := qualifyOne threshold evaluate contacts companyCount acc.2 p
      (tally acc.1 step.1, step.2))
    (⟨postings.length, 0, 0, 0, 0, 0, 0⟩, store)

/-! ### Frontend: JavaScript value model

A small model of the JavaScript values flowing through the TanStack-table
filter functions in `JobPostingSummary` (source embedded in
`DEPLOYMENT.md`). -/

/-- A JavaScript value as seen by the table filter functions. -/
inductive JVal where
  | jnull
  | jundef
  | jbool (b : Bool)
  | jnum (n : Int)
  | jstr (s : String)
  | jarr (xs : List JVal)

/-- JavaScript truthiness test (`!v` is the negation of this). -/
def truthy : JVal → Bool
  | .jnull => false
  | .jundef => false
  | .jbool b => b
  | .jnum n => n != 0
  | .jstr s => !(s == "")
  | .jarr _ => true

/-- `Array.isArray`. -/
def isArrayJ : JVal → Bool
  | .jarr _ => true
  | _ => false

/-- The elements of an array value (`[]` for non-arrays, which the filters
never reach). -/
def arrElems : JVal → List JVal
  | .jarr xs => xs
  | _ => []

/-- `typeof v === "string"`. -/
def isStringJ : JVal → Bool
  | .jstr _ => true
  | _ => false

/-- The JavaScript `String()` conversion.  Arrays render as their elements
joined with commas, `null` and `undefined` elements becoming empty. -/
def jsToString : JVal → String
  | .jnull => "null"
  | .jundef => "undefined"
  | .jbool b => cond b "true" "false"
  | .jnum n => toString n
  | .jstr s => s
  | .jarr xs =>
    String.intercalate ","
      (xs.attach.map (fun x =>
        match x with
        | ⟨.jnull, _⟩ => ""
        | ⟨.jundef, _⟩ => ""
        | ⟨v, _⟩ => jsToString v))

/-- SameValueZero equality, as used by `Array.prototype.includes`; distinct
arrays compare by reference and are modelled as unequal. -/
def sameValueZero : JVal → JVal → Bool
  | .jnull, .jnull => true
  | .jundef, .jundef => true
  | .jbool a, .jbool b => a == b
  | .jnum a, .jnum b => a == b
  | .jstr a, .jstr b => a == b
  | _, _ => false

/-- `xs.includes(v)` on a JavaScript array. -/
def jsIncludes (xs : List JVal) (v : JVal) : Bool :=
  xs.any (fun x => sameValueZero x v)

/-- The common guard of the three filter functions:
`!filterValue || !Array.isArray(filterValue) || filterValue.length === 0`. -/
def emptyFilterGuard (filterValue : JVal) : Bool :=
  !truthy filterValue || !isArrayJ filterValue || (arrElems filterValue).length == 0

/-- The `multiSelectFilter` filter function of the `JobPostingSummary` table:
with no selected values it keeps every row, otherwise it keeps rows whose
stringified cell value is among the selected values. -/
def multiSelectFilter (getValue : String → JVal) (columnId : String)
    (filterValue : JVal) : Bool :=
  if emptyFilterGuard filterValue then true
  else
    let value := getValue columnId
    jsIncludes (arrElems filterValue) (.jstr (jsToString value))

/-- The `arrayFilter` filter function (used for `type_of_role`): with no
selected values it keeps every row; a non-array cell value is filtered out;
otherwise it keeps rows where some selected value occurs (case-insensitively)
inside some role of the cell's array. -/
def arrayFilter (getValue : String → JVal) (columnId : String)
    (filterValue : JVal) : Bool :=
  if emptyFilterGuard filterValue then true
  else
    let value := getValue columnId
    if !truthy value || !isArrayJ value then false
    else
      (arrElems filterValue).any (fun fv =>
        (arrElems value).any (fun role =>
          hasSubstrList (lowerStr (jsToString fv)).data (lowerStr (jsToString role)).data))

/-- The first segment of `s.split(sep)` — `s.split("T")[0]` in `dateFilter`. -/
def splitHead (sep : Char) (s : String) : String :=
  ⟨s.data.takeWhile (fun c => c != sep)⟩

/-- The `dateFilter` filter function: with no selected days it keeps every row;
a non-string cell value is filtered out; otherwise the date part before `"T"`
of the UTC timestamp must be among the selected days. -/
def dateFilter (getValue : String → JVal) (columnId : String)
    (filterValue : JVal) : Bool :=
  if emptyFilterGuard filterValue then true
  else
    let value := getValue columnId
    if !truthy value || !isStringJ value then false
    else jsIncludes (arrElems filterValue) (.jstr (splitHead 'T' (jsToString value)))

/-! ### Frontend: `TableCellWithLinks`

Embedding of `processContent` / `detectURLs` from
`frontend/src/components/TableCellWithLinks.tsx` and the render decisions the
component derives from them. -/

/-- The `content` prop of `TableCellWithLinks`: `string | string[] | null`. -/
inductive CellContent where
  | cnull
  | cstr (s : String)
  | carr (xs : List String)
deriving DecidableEq, Repr

/-- JavaScript truthiness of the `content` prop (`!content`): `null` and the
empty string are falsy, arrays are always truthy. -/
def contentTruthy : CellContent → Bool
  | .cnull => false
  | .cstr s => !(s == "")
  | .carr _ => true

/-- A detected URL with its display text and surrounding context, as built by
`detectURLs`. -/
structure DetectedURL where
  url : String
  displayText : String
  fullText : String
deriving DecidableEq, Repr

/-- A character the URL regex class `[^\s|)]` rejects (whitespace, `|`, `)`). -/
def isUrlStopChar (c : Char) : Bool :=
  c == ' ' || c == '\t' || c == '\n' || c == '\r' ||
  c == Char.ofNat 12 || c == Char.ofNat 11 || c == Char.ofNat 160 ||
  c == '|' || c == ')'

/-- Does the text begin with the pattern up to ASCII case (the regex `i`
flag)? -/
def lowersTo : List Char → List Char → Bool
  | [], _ => true
  | _ :: _, [] => false
  | p :: ps, c :: cs => p == asciiLower c && lowersTo ps cs

/-- Match the regex `https?:\/\/[^\s|)]+` anchored at the start of the text,
returning the matched characters. -/
def matchUrlAt (cs : List Char) : Option (List Char) :=
  if lowersTo "https://".data cs then
    let run := (cs.drop 8).takeWhile (fun c => !isUrlStopChar c)
    if run.isEmpty then none else some (cs.take 8 ++ run)
  else if lowersTo "http://".data cs then
    let run := (cs.drop 7).takeWhile (fun c => !isUrlStopChar c)
    if run.isEmpty then none else some (cs.take 7 ++ run)
  else none

/-- Scan the text for all non-overlapping URL matches (`matchAll` with the `g`
flag), returning match positions and matched characters. -/
def scanUrls : Nat → Nat → List Char → List (Nat × List Char)
  | 0, _, _ => []
  | _, _, [] => []
  | fuel + 1, pos, c :: cs =>
    match matchUrlAt (c :: cs) with
    | some url => (pos, url) :: scanUrls fuel (pos + url.length) ((c :: cs).drop url.length)
    | none => scanUrls fuel (pos + 1) cs

/-- JavaScript whitespace for `trim` purposes. -/
def isJsSpace (c : Char) : Bool :=
  c == ' ' || c == '\t' || c == '\n' || c == '\r' ||
  c == Char.ofNat 12 || c == Char.ofNat 11 || c == Char.ofNat 160

/-- `String.prototype.trim`. -/
def jsTrim (cs : List Char) : List Char :=
  ((cs.dropWhile isJsSpace).reverse.dropWhile isJsSpace).reverse

/-- `s.split(regex)` over a character class: split on any of the separator
characters, keeping empty segments. -/
def splitOnAny (seps : List Char) : List Char → List (List Char)
  | [] => [[]]
  | c :: cs =>
    let rest := splitOnAny seps cs
    if seps.contains c then [] :: rest
    else
      match rest with
      | [] => [[c]]
      | seg :: segs => (c :: seg) :: segs

/-- The regex `^\d+(?:,\d+)*$` (a view-count-like number with comma groups). -/
def viewCountLike (cs : List Char) : Bool :=
  let segs := splitOnAny [','] cs
  !segs.isEmpty && segs.all (fun seg => !seg.isEmpty && seg.all Char.isDigit)

/-- The characters after the first `"://"` of a URL, if any. -/
def afterScheme : List Char → Option (List Char)
  | ':' :: '/' :: '/' :: rest => some rest
  | [] => none
  | _ :: cs => afterScheme cs

/-- The `hostname` of `new URL(url)`: the authority up to the first `/`, `?` or
`#`, without userinfo or port; `none` models a throwing parse. -/
def hostnameOf (url : List Char) : Option (List Char) :=
  match afterScheme url with
  | none => none
  | some rest =>
    let authority := rest.takeWhile (fun c => !(c == '/' || c == '?' || c == '#'))
    if authority.isEmpty then none
    else
      let afterUser :=
        if authority.contains '@' then
          (authority.reverse.takeWhile (fun c => c != '@')).reverse
        else authority
      some (afterUser.takeWhile (fun c => c != ':'))

/-- `s.replace(pat, rep)`: replace the first occurrence only. -/
def replaceFirstOcc (pat rep : List Char) : List Char → List Char
  | [] => []
  | c :: cs =>
    if beginsList pat (c :: cs) then rep ++ (c :: cs).drop pat.length
    else c :: replaceFirstOcc pat rep cs

/-- Build one `DetectedURL` from a match: context window of up to 50
characters on each side, the before-URL display-text heuristic, the hostname
fallback, and truncation at 60 characters. -/
def mkDetected (text : List Char) (pos : Nat) (url : List Char) : DetectedURL :=
  let contextStart := pos - 50
  let contextEnd := min text.length (pos + url.length + 50)
  let context := (text.drop contextStart).take (contextEnd - contextStart)
  let beforeUrl := jsTrim ((text.drop contextStart).take (pos - contextStart))
  let displayText1 :=
    if beforeUrl.isEmpty then url
    else
      let parts :=
        (splitOnAny ['|', '-', '(', ')'] beforeUrl).filter
          (fun part => !(jsTrim part).isEmpty)
      if parts.isEmpty then url
      else
        let lastPart := jsTrim (parts.getD (parts.length - 1) [])
        if viewCountLike lastPart && parts.length > 1 then
          jsTrim (parts.getD (parts.length - 2) [])
        else lastPart
  let displayText2 :=
    if displayText1 == url then
      match hostnameOf url with
      | none => url
      | some hn => replaceFirstOcc "www.".data [] hn
    else displayText1
  let displayText3 :=
    if displayText2.length > 60 then displayText2.take 60 ++ "...".data
    else displayText2
  ⟨⟨url⟩, ⟨displayText3⟩, ⟨context⟩⟩

/-- `detectURLs` of `TableCellWithLinks`: every URL occurring in the text with
its display text and context. -/
def detectURLs (text : String) : List DetectedURL :=
  (scanUrls text.data.length 0 text.data).map (fun pu => mkDetected text.data pu.1 pu.2)

/-- The result shape of `processContent`. -/
structure ProcessedContent where
  hasURLs : Bool
  urls : List DetectedURL
  displayText : String
deriving DecidableEq, Repr

/-- `processContent` of `TableCellWithLinks`: falsy content (in particular
`null`) short-circuits to no URLs and empty display text; otherwise arrays are
joined with `" | "`, strings pass through `String()`, and URLs are detected. -/
def processContent (content : CellContent) : ProcessedContent :=
  if !contentTruthy content then ⟨false, [], ""⟩
  else
    let textToProcess :=
      match content with
      | .carr xs => String.intercalate " | " xs
      | .cstr s => s
      | .cnull => "null"
    let urls := detectURLs textToProcess
    ⟨decide (0 < urls.length), urls, textToProcess⟩

/-- The text the cell's span renders: `{displayText || ""}`. -/
def cellRenderedText (pc : ProcessedContent) : String :=
  if pc.displayText == "" then "" else pc.displayText

/-- Whether the link icon is rendered: `{hasURLs && <FaLink …/>}`. -/
def showsLinkIcon (pc : ProcessedContent) : Bool := pc.hasURLs

/-- Whether `renderPopover` renders anything:
`if (!showPopover || !popoverPosition || !hasURLs) return null`. -/
def popoverRendered (pc : ProcessedContent) (showPopover : Bool)
    (popoverPosition : Option (Int × Int)) : Bool :=
  !(!showPopover || popoverPosition.isNone || !pc.hasURLs)

/-! ### Sample inputs for concrete instantiations -/

/-- The raw record of the spec's example scenario: provider `X1`,
"Packaging Associate" at Acme in Springfield, OH. -/
def sampleRecord : RawRecord :=
  { provider_id := some "X1"
    title := some "Packaging Associate"
    company := some "Acme"
    location_city := some "Springfield"
    location_state := some "OH"
    location_country := some "US"
    location_postal_code := none
    salary_min := none
    salary_max := none
    salary_currency := none
    salary_period := none
    salary_text := none
    description_html := none
    description_text := some "hourly, on-site, no degree required"
    posting_url := some "https://example.com/jobs/x1"
    published_at := some "2025-01-01T00:00:00Z"
    is_remote := some false
    payload := "{}" }

/-- `sampleRecord` with the non-identity fields changed (different description
and salary text) but the identity tuple intact. -/
def sampleRecordVariant : RawRecord :=
  { sampleRecord with
    description_text := some "shift work, forklift, entry level"
    salary_text := some "$18 an hour"
    salary_min := some 18 }

/-- A hand-built stored posting used to exercise the store operations. -/
def samplePosting : RawPosting :=
  { fingerprint := "fp-sample-0001"
    provider_id := some "X1"
    title := some "Packaging Associate"
    company := some "Acme"
    location_city := some "Springfield"
    location_state := some "OH"
    location_country := some "US"
    location_postal_code := none
    salary_min := none
    salary_max := none
    salary_currency := none
    salary_period := none
    salary_text := none
    description_html := none
    description_text := some "hourly, on-site, no degree required"
    posting_url := some "https://example.com/jobs/x1"
    published_at := some "2025-01-01T00:00:00Z"
    is_remote := some false
    payload := "{}" }

/-- A posting whose text requires U.S. citizenship (the spec's hard-reject
example). -/
def citizenPosting : RawPosting :=
  { samplePosting with
    fingerprint := "fp-citizen-0002"
    description_text := some "Operators wanted. Must be a U.S. citizen to apply." }

/-- A posting that scores just below the threshold in the sample evaluate
oracle. -/
def nearMissPosting : RawPosting :=
  { samplePosting with
    fingerprint := "fp-nearmiss-0003"
    provider_id := some "X2"
    title := some "Warehouse Helper" }

/-- A deterministic stand-in for the external evaluation capability: full
marks for the sample posting, one labor point short for the near miss. -/
def sampleEvaluate (p : RawPosting) : Option (RubricScores × List String) :=
  if p.provider_id == some "X2" then some (⟨40, 25, 14, 0, 0⟩, ["near fit"])
  else some (⟨40, 25, 15, 0, 0⟩, ["strong fit"])

/-- An evaluation oracle matching the spec example score of 88. -/
def sampleEvaluate88 (_p : RawPosting) : Option (RubricScores × List String) :=
  some (⟨40, 25, 13, 5, 5⟩, ["hourly, on-site, no degree required"])

/-- A listing provider that rate-limits every attempt. -/
def alwaysLimited : Nat → ApiResponse Nat := fun _ => .rateLimited

/-- A constant half-second jitter source. -/
def halfJitter : Nat → ℚ := fun _ => 1 / 2

/-- A listing provider whose page 0 succeeds with one record and whose page 1
rate-limits every attempt. -/
def twoPageOracle : Nat → Nat → ApiResponse Nat := fun page _ =>
  match page with
  | 0 => .ok [7] true
  | _ => .rateLimited

/-- A constant jitter source for the two-page run. -/
def twoPageJitter : Nat → Nat → ℚ := fun _ _ => 1 / 2

/-! ## Theorems -/

/-! ### Helper lemmas (shared) -/

/-- A store with no row for a fingerprint has count zero for it. -/
theorem fingerprintCount_eq_zero (store : List RawPosting) (fp : String)
    (h : hasFingerprint store fp = false) : fingerprintCount store fp = 0 := by
  induction store with
  | nil => rfl
  | cons q qs ih =>
    simp only [hasFingerprint, List.any_cons, Bool.or_eq_false_iff] at h
    simp only [fingerprintCount, List.filter_cons, h.1, List.length_nil]
    exact ih h.2

/-- The fingerprint count distributes over append. -/
theorem fingerprintCount_append (s t : List RawPosting) (fp : String) :
    fingerprintCount (s ++ t) fp = fingerprintCount s fp + fingerprintCount t fp := by
  simp [fingerprintCount, List.filter_append]

/-! ### Claim C2 -/

/-- Claim C2: calling `insert_if_absent` twice with identical posting content
returns `Inserted` then `AlreadyExists`, leaves exactly one row for that
fingerprint, and the second call is a no-op on the store; the outcome type has
no constraint-violation case, so no such error can surface. -/
theorem insert_if_absent_idempotent (p : RawPosting) (store : List RawPosting)
    (h : hasFingerprint store p.fingerprint = false) :
    (insert_if_absent p store).1 = .Inserted ∧
    (insert_if_absent p (insert_if_absent p store).2).1 = .AlreadyExists ∧
    (insert_if_absent p (insert_if_absent p store).2).2 = (insert_if_absent p store).2 ∧
    fingerprintCount (insert_if_absent p (insert_if_absent p store).2).2 p.fingerprint = 1 := by
  have hmem : hasFingerprint (store ++ [p]) p.fingerprint = true := by
    simp [hasFingerprint]
  refine ⟨?_, ?_, ?_, ?_⟩
  · simp [insert_if_absent, h]
  · simp [insert_if_absent, h, hmem]
  · simp [insert_if_absent, h, hmem]
  · simp only [insert_if_absent, h, Bool.false_eq_true, if_false, hmem, if_true]
    rw [fingerprintCount_append, fingerprintCount_eq_zero store p.fingerprint h]
    simp [fingerprintCount]

/-- Witness for C2 at the sample posting and the empty store. -/
theorem insert_if_absent_idempotent_witness :
    (insert_if_absent samplePosting []).1 = .Inserted ∧
    (insert_if_absent samplePosting (insert_if_absent samplePosting []).2).1 = .AlreadyExists ∧
    (insert_if_absent samplePosting (insert_if_absent samplePosting []).2).2 =
      (insert_if_absent samplePosting []).2 ∧
    fingerprintCount (insert_if_absent samplePosting
      (insert_if_absent samplePosting []).2).2 samplePosting.fingerprint = 1 :=
  insert_if_absent_idempotent samplePosting [] rfl

/-! ### Claim C8 -/

/-- Claim C8: the `nightly()` entry point is behaviourally equivalent to
`backfill` with `from_days = 1` and the default page bound of 10: for the same
fetch oracle, jitter and store, both produce the same run summary and the same
stored rows. -/
theorem nightly_eq_backfill :
    ∀ (oracle : IngestParams → Nat → Nat → ApiResponse RawRecord)
      (jitter : Nat → Nat → ℚ) (store : List RawPosting),
      nightly oracle jitter store = backfill oracle jitter 1 10 store := by
  intro oracle jitter store
  rfl

/-! ### Claim C10 -/

/-- Claim C10: for `null` content, `processContent` returns `hasURLs = false`,
an empty URL list and an empty display string, so the cell renders empty text
with no link icon and no popover under any hover state. -/
theorem processContent_null :
    processContent .cnull = ⟨false, [], ""⟩ ∧
    cellRenderedText (processContent .cnull) = "" ∧
    showsLinkIcon (processContent .cnull) = false ∧
    ∀ (sp : Bool) (pos : Option (Int × Int)),
      popoverRendered (processContent .cnull) sp pos = false := by
  refine ⟨rfl, rfl, rfl, ?_⟩
  intro sp pos
  simp [popoverRendered, processContent, contentTruthy]

/-! ### Claim C9 -/

/-- Claim C9: each of `multiSelectFilter`, `arrayFilter` and `dateFilter`
returns `true` for every row whenever the supplied filter value is `null`,
`undefined`, not an array, or an empty array, so an unset column filter never
hides any row. -/
theorem empty_filters_keep_all_rows (getValue : String → JVal) (columnId : String)
    (fv : JVal)
    (h : fv = .jnull ∨ fv = .jundef ∨ isArrayJ fv = false ∨ fv = .jarr []) :
    multiSelectFilter getValue columnId fv = true ∧
    arrayFilter getValue columnId fv = true ∧
    dateFilter getValue columnId fv = true := by
  have hg : emptyFilterGuard fv = true := by
    rcases h with h | h | h | h
    · subst h; rfl
    · subst h; rfl
    · cases fv <;> simp_all [emptyFilterGuard, isArrayJ, truthy]
    · subst h; rfl
  exact ⟨by simp [multiSelectFilter, hg], by simp [arrayFilter, hg], by simp [dateFilter, hg]⟩

/-- Witness for C9: an empty filter array on an arbitrary string-valued
column hides nothing. -/
theorem empty_filters_keep_all_rows_witness :
    multiSelectFilter (fun _ => .jstr "Acme") "company" (.jarr []) = true ∧
    arrayFilter (fun _ => .jstr "Acme") "company" (.jarr []) = true ∧
    dateFilter (fun _ => .jstr "Acme") "company" (.jarr []) = true :=
  empty_filters_keep_all_rows (fun _ => .jstr "Acme") "company" (.jarr [])
    (Or.inr (Or.inr (Or.inr rfl)))

/-! ### Claim C1 -/

/-- A citizenship-matching posting leaves the qualified store untouched. -/
theorem qualifyOne_citizenship_store (threshold : Nat)
    (evaluate : RawPosting → Option (RubricScores × List String))
    (contacts : String → Option Contact) (companyCount : RawPosting → Nat)
    (store : List QualifiedPosting) (q : RawPosting)
    (h : (findCitizenshipPhrase (postingText q)).isSome) :
    qualifyOne threshold evaluate contacts companyCount store q = (.HardRejected, store) := by
  obtain ⟨phrase, hp⟩ := Option.isSome_iff_exists.mp h
  simp [qualifyOne, score, hp]

/-- A qualification fold over only citizenship-matching postings never changes
the store. -/
theorem qualify_fold_store_const (threshold : Nat)
    (evaluate : RawPosting → Option (RubricScores × List String))
    (contacts : String → Option Contact) (companyCount : RawPosting → Nat) :
    ∀ (postings : List RawPosting) (acc : RunStats × List QualifiedPosting),
      (∀ q ∈ postings, (findCitizenshipPhrase (postingText q)).isSome) →
      (postings.foldl
        (fun acc p =>
          let step := qualifyOne threshold evaluate contacts companyCount acc.2 p
          (tally acc.1 step.1, step.2)) acc).2 = acc.2 := by
  intro postings
  induction postings with
  | nil => intro acc _; rfl
  | cons q qs ih =>
    intro acc hall
    rw [List.foldl_cons,
      ih _ (fun q2 hq2 => hall q2 (List.mem_cons_of_mem _ hq2))]
    simp [qualifyOne_citizenship_store threshold evaluate contacts companyCount acc.2 q
      (hall q (List.mem_cons_self _ _))]

/-- Claim C1: a posting whose text requires a specific citizenship status is
scored 0 with `hard_reject = true` and the matched phrase recorded, skipping
sub-scoring (the result does not depend on the evaluation capability); its
qualification step leaves the qualified store unchanged; and a run over only
such postings creates no qualified row regardless of rubric content. -/
theorem hard_reject_citizenship
    (evaluate : RawPosting → Option (RubricScores × List String))
    (contacts : String → Option Contact) (companyCount : RawPosting → Nat)
    (threshold : Nat) (store : List QualifiedPosting) (p : RawPosting) (phrase : String)
    (h : findCitizenshipPhrase (postingText p) = some phrase)
    (postings : List RawPosting) (qstore : List QualifiedPosting)
    (hall : ∀ q ∈ postings, (findCitizenshipPhrase (postingText q)).isSome) :
    score evaluate p = .ok ⟨0, [], true, some phrase⟩ ∧
    qualifyOne threshold evaluate contacts companyCount store p = (.HardRejected, store) ∧
    (runQualifier threshold evaluate contacts companyCount postings qstore).2 = qstore := by
  refine ⟨by simp [score, h], ?_, ?_⟩
  · exact qualifyOne_citizenship_store threshold evaluate contacts companyCount store p
      (by simp [h])
  · unfold runQualifier
    exact qualify_fold_store_const threshold evaluate contacts companyCount postings _ hall

/-- Witness for C1 at the spec's "must be a U.S. citizen" example posting. -/
theorem hard_reject_citizenship_witness :
    score sampleEvaluate citizenPosting = .ok ⟨0, [], true, some "u.s. citizen"⟩ ∧
    qualifyOne 80 sampleEvaluate (fun _ => none) (fun _ => 1) [] citizenPosting =
      (.HardRejected, []) ∧
    (runQualifier 80 sampleEvaluate (fun _ => none) (fun _ => 1) [citizenPosting] []).2 = [] :=
  hard_reject_citizenship sampleEvaluate (fun _ => none) (fun _ => 1) 80 [] citizenPosting
    "u.s. citizen" (by decide) [citizenPosting] []
    (by intro q hq; simp at hq; subst hq; decide)

/-! ### Claim C4 -/

/-- The idempotent insert always leaves the inserted row's fingerprint
present. -/
theorem hasQualifiedFingerprint_insert (row : QualifiedPosting)
    (store : List QualifiedPosting) :
    hasQualifiedFingerprint (qualifiedInsert row store) row.fingerprint = true := by
  unfold qualifiedInsert
  by_cases h : hasQualifiedFingerprint store row.fingerprint = true
  · simp only [h, if_true]
  · simp only [Bool.not_eq_true] at h
    simp only [h, Bool.false_eq_true, if_false]
    simp only [hasQualifiedFingerprint, List.any_append, List.any_cons, List.any_nil,
      beq_self_eq_true, Bool.true_or, Bool.or_true]

/-- Claim C4: for a scored posting that is not hard-rejected, the Qualifier
persists it exactly at the threshold — a score equal to the threshold passes
and its fingerprint is written to the qualified store, while a score equal to
the threshold minus one is terminal `BelowThreshold` and nothing is
persisted. -/
theorem threshold_boundary (threshold : Nat)
    (evaluate : RawPosting → Option (RubricScores × List String))
    (contacts : String → Option Contact) (companyCount : RawPosting → Nat)
    (store : List QualifiedPosting) (pA pB : RawPosting) (rA rB : ScoreResult)
    (hsA : score evaluate pA = .ok rA) (hrA : rA.hard_reject = false)
    (hA : rA.score = threshold)
    (hsB : score evaluate pB = .ok rB) (hrB : rB.hard_reject = false)
    (hB : rB.score + 1 = threshold) :
    ((qualifyOne threshold evaluate contacts companyCount store pA).1 = .PassedNoContact ∨
      (qualifyOne threshold evaluate contacts companyCount store pA).1 = .PassedWithContact) ∧
    hasQualifiedFingerprint
      (qualifyOne threshold evaluate contacts companyCount store pA).2 pA.fingerprint = true ∧
    qualifyOne threshold evaluate contacts companyCount store pB = (.BelowThreshold, store) := by
  have hnltA : ¬ rA.score < threshold := by omega
  have hltB : rB.score < threshold := by omega
  have hrow : ∀ c, (mkQualifiedRow pA rA (companyCount pA) c).fingerprint = pA.fingerprint :=
    fun _ => rfl
  refine ⟨?_, ?_, ?_⟩
  · cases hc : contacts (optStr pA.company) with
    | none => left; simp [qualifyOne, hsA, hrA, hnltA, hc]
    | some c => right; simp [qualifyOne, hsA, hrA, hnltA, hc]
  · cases hc : contacts (optStr pA.company) with
    | none =>
      simp only [qualifyOne, hsA, hrA, Bool.false_eq_true, if_false, hnltA, hc]
      rw [← hrow none]
      exact hasQualifiedFingerprint_insert _ store
    | some c =>
      simp only [qualifyOne, hsA, hrA, Bool.false_eq_true, if_false, hnltA, hc]
      rw [← hrow (some c)]
      exact hasQualifiedFingerprint_insert _ store
  · simp [qualifyOne, hsB, hrB, hltB]

/-- Witness for C4 at threshold 80 with scores 80 and 79. -/
theorem threshold_boundary_witness :
    ((qualifyOne 80 sampleEvaluate (fun _ => none) (fun _ => 1) [] samplePosting).1 =
        .PassedNoContact ∨
      (qualifyOne 80 sampleEvaluate (fun _ => none) (fun _ => 1) [] samplePosting).1 =
        .PassedWithContact) ∧
    hasQualifiedFingerprint
      (qualifyOne 80 sampleEvaluate (fun _ => none) (fun _ => 1) [] samplePosting).2
      samplePosting.fingerprint = true ∧
    qualifyOne 80 sampleEvaluate (fun _ => none) (fun _ => 1) [] nearMissPosting =
      (.BelowThreshold, []) :=
  threshold_boundary 80 sampleEvaluate (fun _ => none) (fun _ => 1) [] samplePosting
    nearMissPosting ⟨80, ["strong fit"], false, none⟩ ⟨79, ["near fit"], false, none⟩
    rfl rfl rfl rfl rfl rfl

/-! ### Claim C5 -/

/-- When every priority bucket is empty, no bucket is selected. -/
theorem firstNonEmptyBucket_none (people : List OrgPerson) :
    ∀ bs, (∀ b ∈ bs, bucketCandidates people b = []) →
      firstNonEmptyBucket people bs = none := by
  intro bs
  induction bs with
  | nil => intro _; rfl
  | cons b bs2 ih =>
    intro hall
    have hb : bucketCandidates people b = [] := hall b (List.mem_cons_self _ _)
    simp only [firstNonEmptyBucket, hb, List.isEmpty_nil, if_true]
    exact ih (fun b2 hb2 => hall b2 (List.mem_cons_of_mem _ hb2))

/-- Claim C5: when the resolved organization has no candidate in any priority
bucket, `find_best_contact` returns `None` (it is total, so it cannot raise),
and a qualifying posting is still written to the qualified store as a
`PassedNoContact` row whose contact fields are all null. -/
theorem contact_absence_tolerated
    (resolveOrg : String → Option Nat) (peopleAt : Nat → List OrgPerson)
    (judge : List OrgPerson → Option OrgPerson)
    (evaluate : RawPosting → Option (RubricScores × List String))
    (companyCount : RawPosting → Nat) (threshold : Nat)
    (store : List QualifiedPosting) (p : RawPosting) (r : ScoreResult) (org : Nat)
    (horg : resolveOrg (optStr p.company) = some org)
    (hempty : ∀ b ∈ priorityTitles, bucketCandidates (peopleAt org) b = [])
    (hs : score evaluate p = .ok r) (hr : r.hard_reject = false)
    (hge : threshold ≤ r.score)
    (habs : hasQualifiedFingerprint store p.fingerprint = false) :
    find_best_contact resolveOrg peopleAt judge (optStr p.company) = none ∧
    qualifyOne threshold evaluate (find_best_contact resolveOrg peopleAt judge)
        companyCount store p =
      (.PassedNoContact, store ++ [mkQualifiedRow p r (companyCount p) none]) ∧
    (mkQualifiedRow p r (companyCount p) none).hr_contact_name = none ∧
    (mkQualifiedRow p r (companyCount p) none).hr_contact_title = none ∧
    (mkQualifiedRow p r (companyCount p) none).hr_contact_email = none ∧
    (mkQualifiedRow p r (companyCount p) none).hr_contact_linkedin = none := by
  have hnone : find_best_contact resolveOrg peopleAt judge (optStr p.company) = none := by
    simp [find_best_contact, horg, firstNonEmptyBucket_none (peopleAt org) priorityTitles hempty]
  have hnlt : ¬ r.score < threshold := by omega
  refine ⟨hnone, ?_, rfl, rfl, rfl, rfl⟩
  simp only [qualifyOne, hs, hr, Bool.false_eq_true, if_false, hnlt, hnone]
  simp [qualifiedInsert, mkQualifiedRow, habs]

/-- Witness for C5 at the spec's Acme example: score 88 qualifies with no HR
contact found, producing a row with null contact fields. -/
theorem contact_absence_tolerated_witness :
    find_best_contact (fun c => if c == "Acme" then some 1 else none) (fun _ => [])
        (fun _ => none) (optStr samplePosting.company) = none ∧
    qualifyOne 80 sampleEvaluate88
        (find_best_contact (fun c => if c == "Acme" then some 1 else none) (fun _ => [])
          (fun _ => none))
        (fun _ => 3) [] samplePosting =
      (.PassedNoContact,
        [] ++ [mkQualifiedRow samplePosting
          ⟨88, ["hourly, on-site, no degree required"], false, none⟩ 3 none]) ∧
    (mkQualifiedRow samplePosting
      ⟨88, ["hourly, on-site, no degree required"], false, none⟩ 3 none).hr_contact_name =
        none ∧
    (mkQualifiedRow samplePosting
      ⟨88, ["hourly, on-site, no degree required"], false, none⟩ 3 none).hr_contact_title =
        none ∧
    (mkQualifiedRow samplePosting
      ⟨88, ["hourly, on-site, no degree required"], false, none⟩ 3 none).hr_contact_email =
        none ∧
    (mkQualifiedRow samplePosting
      ⟨88, ["hourly, on-site, no degree required"], false, none⟩ 3
        none).hr_contact_linkedin = none :=
  contact_absence_tolerated (fun c => if c == "Acme" then some 1 else none) (fun _ => [])
    (fun _ => none) sampleEvaluate88 (fun _ => 3) 80 [] samplePosting
    ⟨88, ["hourly, on-site, no degree required"], false, none⟩ 1
    (by decide) (by intro b _; rfl) rfl rfl (by decide) rfl

/-! ### Claim C3 -/

/-- The identity concatenation only depends on the identity tuple. -/
theorem identityConcat_congr (r1 r2 : RawRecord) (h : identityTuple r1 = identityTuple r2) :
    identityConcat r1 = identityConcat r2 := by
  simp only [identityTuple, Prod.mk.injEq] at h
  simp only [identityConcat, h.1, h.2.1, h.2.2.1, h.2.2.2.1, h.2.2.2.2.1, h.2.2.2.2.2]

/-- Normalization succeeds when an identity field is present, and its
fingerprint is the digest of the identity concatenation. -/
theorem normalize_ok (r : RawRecord) (h : ¬(r.title = none ∧ r.company = none)) :
    ∃ p, normalize r = .ok p ∧ p.fingerprint = job_hash (identityConcat r) := by
  unfold normalize
  rw [if_neg h]
  exact ⟨_, rfl, rfl⟩

/-- Claim C3: the fingerprint computed by `normalize` is a pure function of the
identity tuple `(provider_id, title, company, location display, posting_url,
published_at)` — it is the SHA-256 digest of their concatenation — so two raw
records agreeing on the identity tuple (in particular, byte-identical inputs)
normalize to identical fingerprints. -/
theorem fingerprint_stability (r1 r2 : RawRecord)
    (hid : identityTuple r1 = identityTuple r2)
    (h1 : ¬(r1.title = none ∧ r1.company = none))
    (h2 : ¬(r2.title = none ∧ r2.company = none)) :
    ∃ p1 p2 : RawPosting,
      normalize r1 = .ok p1 ∧ normalize r2 = .ok p2 ∧
      p1.fingerprint = job_hash (identityConcat r1) ∧
      job_hash (identityConcat r1) = sha256Hex (utf8Encode (identityConcat r1)) ∧
      p1.fingerprint = p2.fingerprint := by
  obtain ⟨p1, hn1, hf1⟩ := normalize_ok r1 h1
  obtain ⟨p2, hn2, hf2⟩ := normalize_ok r2 h2
  refine ⟨p1, p2, hn1, hn2, hf1, rfl, ?_⟩
  rw [hf1, hf2]
  exact congrArg job_hash (identityConcat_congr r1 r2 hid)

/-- Witness for C3: the sample record and its variant differ in description
and salary but share the identity tuple. -/
theorem fingerprint_stability_witness :
    ∃ p1 p2 : RawPosting,
      normalize sampleRecord = .ok p1 ∧ normalize sampleRecordVariant = .ok p2 ∧
      p1.fingerprint = job_hash (identityConcat sampleRecord) ∧
      job_hash (identityConcat sampleRecord) =
        sha256Hex (utf8Encode (identityConcat sampleRecord)) ∧
      p1.fingerprint = p2.fingerprint :=
  fingerprint_stability sampleRecord sampleRecordVariant rfl
    (by decide) (by decide)

/-! ### Claim C7 -/

/-- The pagination loop never requests more pages than its budget. -/
theorem fetchAllPages_length_le {R : Type} (respond : Nat → Nat → ApiResponse R)
    (jitter : Nat → Nat → ℚ) (page_size : Nat) :
    ∀ (fuel startPage : Nat),
      (fetchAllPages respond jitter page_size fuel startPage).pages_fetched.length ≤ fuel := by
  intro fuel
  induction fuel with
  | zero => intro startPage; simp [fetchAllPages]
  | succ m ih =>
    intro startPage
    unfold fetchAllPages
    rcases hfp : fetch_page (respond startPage) (jitter startPage) startPage with ⟨res, waits⟩
    cases res with
    | error e => simp
    | ok rb =>
      rcases rb with ⟨recs, more⟩
      by_cases hshort : (recs.isEmpty || decide (recs.length < page_size)) = true
      · simp [hshort]
      · simp only [Bool.not_eq_true] at hshort
        simp only [hshort, Bool.false_eq_true, if_false, List.length_cons]
        have := ih (startPage + 1)
        omega

/-- Every page the pagination loop requests lies within the budget window and
is preceded only by full pages. -/
theorem fetchAllPages_pages_spec {R : Type} (respond : Nat → Nat → ApiResponse R)
    (jitter : Nat → Nat → ℚ) (page_size : Nat) :
    ∀ (fuel startPage j : Nat),
      j ∈ (fetchAllPages respond jitter page_size fuel startPage).pages_fetched →
      startPage ≤ j ∧ j < startPage + fuel ∧
        ∀ i, startPage ≤ i → i < j → pageFull page_size (pageResult respond jitter i) = true := by
  intro fuel
  induction fuel with
  | zero => intro startPage j hj; simp [fetchAllPages] at hj
  | succ m ih =>
    intro startPage j hj
    unfold fetchAllPages at hj
    rcases hfp : fetch_page (respond startPage) (jitter startPage) startPage with ⟨res, waits⟩
    rw [hfp] at hj
    cases res with
    | error e =>
      simp at hj
      subst hj
      exact ⟨le_refl _, by omega, fun i hi1 hi2 => absurd hi1 (by omega)⟩
    | ok rb =>
      rcases rb with ⟨recs, more⟩
      by_cases hshort : (recs.isEmpty || decide (recs.length < page_size)) = true
      · simp [hshort] at hj
        subst hj
        exact ⟨le_refl _, by omega, fun i hi1 hi2 => absurd hi1 (by omega)⟩
      · simp only [Bool.not_eq_true] at hshort
        simp only [hshort, Bool.false_eq_true, if_false, List.mem_cons] at hj
        rcases hj with hj | hj
        · subst hj
          exact ⟨le_refl _, by omega, fun i hi1 hi2 => absurd hi1 (by omega)⟩
        · obtain ⟨ha, hb, hc⟩ := ih (startPage + 1) j hj
          refine ⟨by omega, by omega, ?_⟩
          intro i hi1 hi2
          by_cases hie : i = startPage
          · subst hie
            simp [pageFull, pageResult, hfp, hshort]
          · exact hc i (by omega) hi2

/-- Claim C7: pagination always terminates — the number of requested pages is
bounded by the page budget, and a page is only requested when every earlier
page came back full, so the sequence ends at the first page returning fewer
records than requested or an empty page. -/
theorem pagination_terminates {R : Type} (respond : Nat → Nat → ApiResponse R)
    (jitter : Nat → Nat → ℚ) (page_size max_pages : Nat) :
    (fetchPages respond jitter page_size max_pages).pages_fetched.length ≤ max_pages ∧
    ∀ j ∈ (fetchPages respond jitter page_size max_pages).pages_fetched,
      j < max_pages ∧
      ∀ i < j, pageFull page_size (pageResult respond jitter i) = true := by
  constructor
  · exact fetchAllPages_length_le respond jitter page_size max_pages 0
  · intro j hj
    obtain ⟨_, h2, h3⟩ := fetchAllPages_pages_spec respond jitter page_size max_pages 0 j hj
    exact ⟨by omega, fun i hi => h3 i (Nat.zero_le i) hi⟩

/-- Witness for C7 at a concrete oracle and a budget of 10 pages. -/
theorem pagination_terminates_witness :
    (fetchPages twoPageOracle twoPageJitter 1 10).pages_fetched.length ≤ 10 :=
  (pagination_terminates twoPageOracle twoPageJitter 1 10).1

/-! ### Claim C6 -/

/-- The retry loop performs at most as many backoff waits as it has retry
fuel. -/
theorem fetchAttempts_waits_le {R : Type} (respond : Nat → ApiResponse R)
    (jitter : Nat → ℚ) (pageIdx : Nat) :
    ∀ (fuel attempt : Nat),
      (fetchAttempts respond jitter pageIdx attempt fuel).2.length ≤ fuel := by
  intro fuel
  induction fuel with
  | zero => intro attempt; cases h : respond attempt <;> simp [fetchAttempts, h]
  | succ m ih =>
    intro attempt
    cases h : respond attempt with
    | ok recs more => simp [fetchAttempts, h]
    | httpError code => simp [fetchAttempts, h]
    | rateLimited =>
      simp only [fetchAttempts, h, List.length_cons]
      have := ih (attempt + 1)
      omega

/-- Under permanent rate limiting, `fetch_page` performs exactly the five
backoff waits `2 ^ n + jitter n` and then surfaces `RateLimitExhausted`. -/
theorem fetch_page_exhausted {R : Type} (respond : Nat → ApiResponse R)
    (jitter : Nat → ℚ) (k : Nat) (h429 : ∀ a, respond a = .rateLimited) :
    fetch_page respond jitter k =
      (.error (.RateLimitExhausted k),
        [2 ^ 0 + jitter 0, 2 ^ 1 + jitter 1, 2 ^ 2 + jitter 2,
         2 ^ 3 + jitter 3, 2 ^ 4 + jitter 4]) := by
  simp [fetch_page, fetchAttempts, h429]

/-- Claim C6: on rate-limit responses `fetch_page` retries the same page at
most 5 times, the wait before retry `n` being `2 ^ n` seconds plus the
fractional jitter (so it lies in `[2 ^ n, 2 ^ n + 1)`); a permanently limited
page surfaces `RateLimitExhausted` after exactly five waits; and in a
paginated run the failure is reported for that page only, with the records of
already-fetched pages retained. -/
theorem rate_limit_backoff {R : Type} (respond : Nat → ApiResponse R) (jitter : Nat → ℚ)
    (k : Nat)
    (h429 : ∀ a, respond a = .rateLimited)
    (hj : ∀ n, 0 ≤ jitter n ∧ jitter n < 1)
    (respond2 : Nat → Nat → ApiResponse R) (jitter2 : Nat → Nat → ℚ)
    (page_size max_pages : Nat) (recs0 : List R) (more0 : Bool)
    (hp0 : ∀ a, respond2 0 a = .ok recs0 more0)
    (hfull : recs0.isEmpty = false) (hlen : page_size ≤ recs0.length)
    (hp1 : ∀ a, respond2 1 a = .rateLimited)
    (hmp : 2 ≤ max_pages) :
    (fetch_page respond jitter k).1 = .error (.RateLimitExhausted k) ∧
    (fetch_page respond jitter k).2.length = 5 ∧
    (∀ n, n < 5 → (fetch_page respond jitter k).2.getD n 0 = 2 ^ n + jitter n) ∧
    (∀ n, n < 5 → 2 ^ n ≤ (fetch_page respond jitter k).2.getD n 0 ∧
      (fetch_page respond jitter k).2.getD n 0 < 2 ^ n + 1) ∧
    (∀ (resp : Nat → ApiResponse R) (jit : Nat → ℚ) (pg : Nat),
      (fetch_page resp jit pg).2.length ≤ 5) ∧
    fetchPages respond2 jitter2 page_size max_pages =
      ⟨recs0, [0, 1], some (.RateLimitExhausted 1)⟩ := by
  have hw := fetch_page_exhausted respond jitter k h429
  have hgetD : ∀ n, n < 5 → (fetch_page respond jitter k).2.getD n 0 = 2 ^ n + jitter n := by
    intro n hn
    rw [hw]
    interval_cases n <;> simp
  refine ⟨by rw [hw], by rw [hw]; rfl, hgetD, ?_, ?_, ?_⟩
  · intro n hn
    rw [hgetD n hn]
    obtain ⟨hj0, hj1⟩ := hj n
    constructor <;> linarith
  · intro resp jit pg
    exact fetchAttempts_waits_le resp jit pg 5 0
  · obtain ⟨m, rfl⟩ : ∃ m, max_pages = m + 2 := ⟨max_pages - 2, by omega⟩
    have h0 : fetch_page (respond2 0) (jitter2 0) 0 = (.ok (recs0, more0), []) := by
      simp [fetch_page, fetchAttempts, hp0 0]
    have h1 : fetch_page (respond2 1) (jitter2 1) 1 =
        (.error (.RateLimitExhausted 1),
          [2 ^ 0 + jitter2 1 0, 2 ^ 1 + jitter2 1 1, 2 ^ 2 + jitter2 1 2,
           2 ^ 3 + jitter2 1 3, 2 ^ 4 + jitter2 1 4]) :=
      fetch_page_exhausted (respond2 1) (jitter2 1) 1 hp1
    have hshort : (recs0.isEmpty || decide (recs0.length < page_size)) = false := by
      simp [hfull]
      omega
    unfold fetchPages
    unfold fetchAllPages
    rw [h0]
    simp only [hshort, Bool.false_eq_true, if_false]
    unfold fetchAllPages
    rw [h1]
    simp

/-- Witness for C6 with a concrete always-throttled oracle and a two-page
run whose second page is permanently limited. -/
theorem rate_limit_backoff_witness :
    (fetch_page alwaysLimited halfJitter 3).1 = .error (.RateLimitExhausted 3) ∧
    (fetch_page alwaysLimited halfJitter 3).2.length = 5 ∧
    (∀ n, n < 5 →
      (fetch_page alwaysLimited halfJitter 3).2.getD n 0 = 2 ^ n + halfJitter n) ∧
    (∀ n, n < 5 → 2 ^ n ≤ (fetch_page alwaysLimited halfJitter 3).2.getD n 0 ∧
      (fetch_page alwaysLimited halfJitter 3).2.getD n 0 < 2 ^ n + 1) ∧
    (∀ (resp : Nat → ApiResponse Nat) (jit : Nat → ℚ) (pg : Nat),
      (fetch_page resp jit pg).2.length ≤ 5) ∧
    fetchPages twoPageOracle twoPageJitter 1 10 =
      ⟨[7], [0, 1], some (.RateLimitExhausted 1)⟩ :=
  rate_limit_backoff alwaysLimited halfJitter 3 (fun _ => rfl)
    (fun _ => ⟨by norm_num [halfJitter], by norm_num [halfJitter]⟩)
    twoPageOracle twoPageJitter 1 10 [7] true (fun _ => rfl) rfl (by decide)
    (fun _ => rfl) (by decide)

end FD
